import Mathlib

/-!
Verification of the tarsnap utility (Go): host-discovery, history
synchronization, and line deduplication.

The embedding models, from `main.go` (the current revision) and the two
earlier revisions of `main` kept in the repository:
  - `readLines` / the aggregation loop in `dowork` (lines appended per file),
  - `getUniqueLineCount` (size of a Go map keyed by line),
  - `getUniqueBashLines` (set of all lines across files; the returned slice
    order is Go map iteration order, i.e. unspecified, so outputs are
    characterised relationally),
  - `generateSummaryFile` (the `len(line) < 10` write filter),
  - `isValidIPv4` / `getip` (terraform output validation gate),
  - the IP-override branch of the earlier revisions' `main`,
  - `setup` (plist file naming and the StartInterval field).

Strings are Lean `String`s; Go `len` on a string is its UTF-8 byte count,
modelled by `String.utf8ByteSize`.
-/

namespace Tarsnap

/-- `MAX_LEN` from `generateSummaryFile`: commands shorter than this many
bytes are not written to the summary file. -/
def MAX_LEN : Nat := 10

/-- Go `len(s)`: the UTF-8 byte length of a string. -/
def goLen (s : String) : Nat := s.utf8ByteSize

/-- The aggregation loop in `dowork`: starting from an empty slice, each
visited file's lines are appended in traversal order
(`aggregateLines = append(aggregateLines, lines...)`). -/
def aggregateLines (files : List (List String)) : List String :=
  files.foldl (fun acc lines => acc ++ lines) []

/-- `getUniqueLineCount`: inserts every line as a key of a Go map and
returns the map's size, i.e. the number of distinct lines. `List.dedup`
keeps exactly one occurrence of each distinct line, so its length is the
final size of the map. -/
def getUniqueLineCount (lines : List String) : Nat :=
  lines.dedup.length

/-- The set of keys of the `uniqueLines` map built by `getUniqueBashLines`
over a directory whose non-directory files hold the given line lists: every
scanned line is inserted, so the key set is the set of all lines. -/
def uniqueBashLineSet (files : List (List String)) : Finset String :=
  (aggregateLines files).toFinset

/-- `getUniqueBashLines` returns the map's keys as a slice in Go map
iteration order, which is unspecified: a list `l` is a possible return
value exactly when it lists each distinct line once, in some order. -/
def IsUniqueBashLinesOutput (files : List (List String)) (l : List String) : Prop :=
  l.Nodup ∧ l.toFinset = uniqueBashLineSet files

/-- A canonical possible return value of `getUniqueBashLines`: each
distinct line once, in first-occurrence order. -/
def getUniqueBashLines (files : List (List String)) : List String :=
  (aggregateLines files).dedup

/-- The write loop of `generateSummaryFile`: a line is skipped when
`len(line) < MAX_LEN`, otherwise written. The summary file's lines are the
kept lines in iteration order. -/
def summaryLines (uniqueLines : List String) : List String :=
  uniqueLines.filter (fun line => !(goLen line < MAX_LEN))

/-- `filepath.Join(logDir, "summary.txt")` in `generateSummaryFile` (for a
clean directory path): the summary file lives inside the walked directory. -/
def summaryPath (logDir : String) : String :=
  logDir ++ "/summary.txt"

/- Helper lemmas about the aggregation fold. -/

theorem foldl_append_eq (files : List (List String)) (acc : List String) :
    files.foldl (fun a lines => a ++ lines) acc = acc ++ files.foldl (fun a lines => a ++ lines) [] := by
  induction files generalizing acc with
  | nil => simp
  | cons f fs ih =>
    simp only [List.foldl_cons]
    rw [ih (acc ++ f), ih ([] ++ f)]
    simp [List.append_assoc]

theorem mem_aggregateLines_cons (f : List String) (fs : List (List String)) (x : String)
    (hx : x ∈ f) : x ∈ aggregateLines (f :: fs) := by
  unfold aggregateLines
  simp only [List.foldl_cons, List.nil_append]
  rw [foldl_append_eq]
  exact List.mem_append_left _ hx

theorem getUniqueBashLines_isOutput (files : List (List String)) :
    IsUniqueBashLinesOutput files (getUniqueBashLines files) := by
  refine ⟨List.nodup_dedup _, ?_⟩
  unfold getUniqueBashLines uniqueBashLineSet
  exact List.toFinset_eq_iff_perm_dedup.mpr (by rw [List.dedup_idem])

/-- The fixture of the spec's literal scenario: `a.txt` then `b.txt`. -/
def fixtureFiles : List (List String) :=
  [["ls -la", "cd /tmp", "ls -la"], ["cd /tmp", "echo hello world"]]

/-- The summary file's lines in ascending lexicographic order, for comparing
two runs' summary files up to the unspecified map iteration order. -/
def sortedSummaryLines (uniqueLines : List String) : List String :=
  List.insertionSort (fun a b => a ≤ b) (summaryLines uniqueLines)

/-- ASCII decimal digit test on a character. -/
def isDigitChar (c : Char) : Bool := 48 ≤ c.toNat && c.toNat ≤ 57

/-- Split a character sequence at every `'.'` (the dotted-quad separator). -/
def splitOnDot : List Char → List (List Char)
  | [] => [[]]
  | c :: cs =>
    if c = '.' then [] :: splitOnDot cs
    else
      match splitOnDot cs with
      | [] => [[c]]
      | f :: rest => (c :: f) :: rest

/-- One decimal field of a dotted-quad IPv4 address as accepted by
`netaddr.ParseIP` (called by `isValidIPv4`): one to three decimal digits,
no leading zero, value at most 255. -/
def parseIPv4Field (s : List Char) : Option Nat :=
  if s.length = 0 ∨ 3 < s.length then none
  else if !(s.all isDigitChar) then none
  else if 1 < s.length ∧ s.headI = '0' then none
  else
    let n := s.foldl (fun acc c => acc * 10 + (c.toNat - 48)) 0
    if n ≤ 255 then some n else none

/-- `isValidIPv4`: `netaddr.ParseIP(ip)` succeeds and the parsed address
`Is4`, i.e. the string is a dotted quad of four valid decimal fields
(an address parsed from any other form, such as IPv6, is not `Is4`). -/
def isValidIPv4 (ip : String) : Bool :=
  match splitOnDot ip.data with
  | [a, b, c, d] =>
    (parseIPv4Field a).isSome && (parseIPv4Field b).isSome &&
      (parseIPv4Field c).isSome && (parseIPv4Field d).isSome
  | _ => false

/-- `getip` after the terraform subprocess produced parsed JSON whose
`instance_public_ip.value` field is `tfValue`: `log.Fatalf` terminates the
run when the value is not a valid IPv4 address (`none`), otherwise the
value is returned. -/
def getip (tfValue : String) : Option String :=
  if isValidIPv4 tfValue then some tfValue else none

/-- Whether `dowork` reaches its scp fetch step. -/
inductive FetchStep where
  | notAttempted
  | attempted (ip : String)
deriving DecidableEq

/-- The start of `dowork`: `getip` runs before anything else; when it
terminates the run (invalid address) the scp fetch is never reached,
otherwise the fetch is attempted with the resolved address. -/
def doworkFetch (tfValue : String) : FetchStep :=
  match getip tfValue with
  | none => FetchStep.notAttempted
  | some ip => FetchStep.attempted ip

/-- Outcome of the IP-selection branch of the earlier revisions' `main`:
the host IP used and whether the terraform subprocess was invoked. -/
structure ResolveResult where
  ip : String
  terraformInvoked : Bool
deriving DecidableEq

/-- The IP-selection branch of the earlier revisions' `main`: when the
`-ip` flag value is nonempty it is used directly with no subprocess,
otherwise the terraform subprocess is invoked and its parsed output field
used. -/
def resolveIP (ipFlag : String) (tfValue : String) : ResolveResult :=
  if ipFlag ≠ "" then ⟨ipFlag, false⟩ else ⟨tfValue, true⟩

/-- `launctlTask := fmt.Sprintf("%s.%s", config.Label, ip)` in `setup`. -/
def launctlTask (label ip : String) : String := label ++ "." ++ ip

/-- The base name of the descriptor file `setup` creates in the
LaunchAgents directory: `fmt.Sprintf("%s/%s.plist", LaunchAgentsDir,
launctlTask)`. -/
def plistFileName (label ip : String) : String := launctlTask label ip ++ ".plist"

def nsPerSecond : Nat := 1000000000

/-- `int(config.Delay.Seconds())` in `setup`, for a nonnegative delay in
nanoseconds (Go `time.Duration`): `Seconds()` is `float64(d)/1e9` in
value and `int` truncates toward zero, which for delays whose second
count is exactly representable (all whole-second flag values such as 5m)
is the integer quotient by 1e9. -/
def delaySeconds (delayNs : Nat) : Nat := delayNs / nsPerSecond

/-- The `StartInterval` value rendered into the plist template:
`strconv.Itoa(int(config.Delay.Seconds()))`. -/
def startIntervalField (delayNs : Nat) : String := toString (delaySeconds delayNs)

/-- `5 * time.Minute` in nanoseconds. -/
def fiveMinutes : Nat := 5 * 60 * nsPerSecond

/-- A snapshot of the capture directory: the regular (non-directory) files
the walk visits, as (base name, lines) pairs. -/
structure CaptureDir where
  files : List (String × List String)

/-- The line lists the directory walk reads, in traversal order; the walk
skips only directories, so every regular file is read. -/
def walkFiles (d : CaptureDir) : List (List String) := d.files.map Prod.snd

/-- The aggregate line sequence of one walk over the directory. -/
def dirAggregate (d : CaptureDir) : List String := aggregateLines (walkFiles d)

/-- The effect of `os.Create(filepath.Join(logDir, "summary.txt"))` plus
the write loop: afterwards the directory holds a regular file named
`summary.txt` with the given content; a prior `summary.txt` is truncated
and replaced, all other files are untouched. -/
def writeSummaryFile (d : CaptureDir) (content : List String) : CaptureDir :=
  ⟨("summary.txt", content) :: d.files.filter (fun f => f.1 ≠ "summary.txt")⟩

/-- One `generateSummaryFile` run over the directory, given the order `l`
in which map iteration yielded the unique lines. -/
def runGenerateSummary (d : CaptureDir) (l : List String) : CaptureDir :=
  writeSummaryFile d (summaryLines l)

/-! ## Claim theorems -/

/-- C1, counterexample: on the two-file fixture the aggregate line sequence
has 5 entries (3 from `a.txt` plus 2 from `b.txt`), not 4 as claimed. -/
theorem fixture_aggregate_count_ne_four :
    (aggregateLines fixtureFiles).length ≠ 4 := by decide

/-- C1, amended: on the two-file fixture the aggregation step produces an
aggregate line sequence of 5 entries, the deduplicated set is exactly
the three lines ls -la, cd /tmp, echo hello world, and the written summary
file contains exactly the single line echo hello world, whatever order map
iteration yields the unique lines in. -/
theorem fixture_expected_output :
    (aggregateLines fixtureFiles).length = 5 ∧
    getUniqueLineCount (aggregateLines fixtureFiles) = 3 ∧
    uniqueBashLineSet fixtureFiles = {"ls -la", "cd /tmp", "echo hello world"} ∧
    ∀ l, IsUniqueBashLinesOutput fixtureFiles l → summaryLines l = ["echo hello world"] := by
  refine ⟨by decide, by decide, by decide, ?_⟩
  intro l hl
  have hcanon := getUniqueBashLines_isOutput fixtureFiles
  have hperm : l.Perm (getUniqueBashLines fixtureFiles) :=
    List.perm_of_nodup_nodup_toFinset_eq hl.1 hcanon.1 (hl.2.trans hcanon.2.symm)
  have hfilter := hperm.filter (fun line => !(goLen line < MAX_LEN))
  have hc : summaryLines (getUniqueBashLines fixtureFiles) = ["echo hello world"] := by decide
  unfold summaryLines at hc
  rw [hc] at hfilter
  exact List.perm_singleton.mp hfilter

/-- C1, witness for the amended claim's quantified part: the canonical
map-iteration order is a valid unique-lines output on the fixture and its
summary file holds exactly the line echo hello world. -/
theorem fixture_expected_output_witness :
    summaryLines (getUniqueBashLines fixtureFiles) = ["echo hello world"] :=
  fixture_expected_output.2.2.2 (getUniqueBashLines fixtureFiles)
    ⟨by decide, by decide⟩

/-- C2: every line the `generateSummaryFile` write loop emits to
summary.txt has byte length at least `MAX_LEN` (10), for every input. -/
theorem summary_no_short_lines (uniqueLines : List String) (line : String)
    (h : line ∈ summaryLines uniqueLines) : MAX_LEN ≤ goLen line := by
  unfold summaryLines at h
  have hp := (List.mem_filter.mp h).2
  simp only [Bool.not_eq_true', decide_eq_false_iff_not, Nat.not_lt] at hp
  exact hp

/-- C2, witness: the 16-byte line echo hello world appears in a summary
output and indeed has length at least 10. -/
theorem summary_no_short_lines_witness :
    MAX_LEN ≤ goLen "echo hello world" :=
  summary_no_short_lines ["echo hello world"] "echo hello world" (by decide)

/-- C3: the deduplicated count computed by `getUniqueLineCount` never
exceeds the total line count, and equals it exactly when the input lines
are pairwise distinct. -/
theorem unique_count_le_total (lines : List String) :
    getUniqueLineCount lines ≤ lines.length ∧
    (getUniqueLineCount lines = lines.length ↔ lines.Nodup) := by
  refine ⟨(List.dedup_sublist lines).length_le, ?_, ?_⟩
  · intro h
    exact List.dedup_eq_self.mp ((List.dedup_sublist lines).eq_of_length h)
  · intro h
    rw [getUniqueLineCount, List.dedup_eq_self.mpr h]

/-- C4: every possible `getUniqueBashLines` output lists exactly the lines
occurring in the walked files, membership decided by exact string equality
with no normalization: a string is in the output iff that very string is
among the aggregate input lines. -/
theorem unique_output_mem_iff (files : List (List String)) (l : List String)
    (h : IsUniqueBashLinesOutput files l) (s : String) :
    s ∈ l ↔ s ∈ aggregateLines files := by
  rw [← List.mem_toFinset, h.2, uniqueBashLineSet, List.mem_toFinset]

/-- C4, witness: on the fixture, cd /tmp is in the canonical unique output
and among the aggregate lines. -/
theorem unique_output_mem_iff_witness :
    "cd /tmp" ∈ getUniqueBashLines fixtureFiles ↔
      "cd /tmp" ∈ aggregateLines fixtureFiles :=
  unique_output_mem_iff fixtureFiles (getUniqueBashLines fixtureFiles)
    ⟨by decide, by decide⟩ "cd /tmp"

/-- C5: two `generateSummaryFile` runs over the same directory snapshot
(two valid unique-line orderings of the same walked files) write summary
files with the same set of lines, and their sorted line sequences are
identical. -/
theorem rerun_summary_set_equal (files : List (List String)) (l₁ l₂ : List String)
    (h₁ : IsUniqueBashLinesOutput files l₁) (h₂ : IsUniqueBashLinesOutput files l₂) :
    (summaryLines l₁).toFinset = (summaryLines l₂).toFinset ∧
    sortedSummaryLines l₁ = sortedSummaryLines l₂ := by
  have hperm : l₁.Perm l₂ :=
    List.perm_of_nodup_nodup_toFinset_eq h₁.1 h₂.1 (h₁.2.trans h₂.2.symm)
  have hfilter : (summaryLines l₁).Perm (summaryLines l₂) := hperm.filter _
  refine ⟨List.toFinset_eq_of_perm _ _ hfilter, ?_⟩
  have hs₁ := List.sorted_insertionSort (fun a b : String => a ≤ b) (summaryLines l₁)
  have hs₂ := List.sorted_insertionSort (fun a b : String => a ≤ b) (summaryLines l₂)
  have hp : (sortedSummaryLines l₁).Perm (sortedSummaryLines l₂) :=
    (List.perm_insertionSort _ _).trans
      (hfilter.trans (List.perm_insertionSort _ _).symm)
  exact List.eq_of_perm_of_sorted hp hs₁ hs₂

/-- C5, witness: two different iteration orders of the fixture's unique
lines yield summary files with equal line sets and equal sorted
sequences. -/
theorem rerun_summary_set_equal_witness :
    IsUniqueBashLinesOutput fixtureFiles ["ls -la", "cd /tmp", "echo hello world"] ∧
    IsUniqueBashLinesOutput fixtureFiles ["echo hello world", "cd /tmp", "ls -la"] ∧
    ((summaryLines ["ls -la", "cd /tmp", "echo hello world"]).toFinset =
        (summaryLines ["echo hello world", "cd /tmp", "ls -la"]).toFinset ∧
      sortedSummaryLines ["ls -la", "cd /tmp", "echo hello world"] =
        sortedSummaryLines ["echo hello world", "cd /tmp", "ls -la"]) :=
  ⟨⟨by decide, by decide⟩, ⟨by decide, by decide⟩,
    rerun_summary_set_equal fixtureFiles _ _ ⟨by decide, by decide⟩ ⟨by decide, by decide⟩⟩

/-- C6: when the resolved terraform output value is not a syntactically
valid IPv4 address, `getip` terminates the run (`none`) and the scp fetch
step of `dowork` is never attempted. -/
theorem invalid_ip_aborts_before_fetch (v : String) (h : isValidIPv4 v = false) :
    getip v = none ∧ doworkFetch v = FetchStep.notAttempted := by
  have hg : getip v = none := by simp [getip, h]
  exact ⟨hg, by simp [doworkFetch, hg]⟩

/-- C6, witness: 10.0.0.256 is not a valid IPv4 address (field over 255),
so resolution fails and the fetch is not attempted. -/
theorem invalid_ip_aborts_before_fetch_witness :
    isValidIPv4 "10.0.0.256" = false ∧
    (getip "10.0.0.256" = none ∧
      doworkFetch "10.0.0.256" = FetchStep.notAttempted) :=
  ⟨by decide, invalid_ip_aborts_before_fetch "10.0.0.256" (by decide)⟩

/-- C7: whenever the `-ip` flag carries a nonempty value, the earlier
revisions' `main` uses that value as the host IP and never invokes the
terraform subprocess. -/
theorem ip_override_skips_terraform (ipFlag tfValue : String) (h : ipFlag ≠ "") :
    resolveIP ipFlag tfValue = ⟨ipFlag, false⟩ := by
  simp [resolveIP, h]

/-- C7, witness: with -ip 10.0.0.5 supplied, the host IP is 10.0.0.5 and
terraform is not invoked. -/
theorem ip_override_skips_terraform_witness :
    ("10.0.0.5" : String) ≠ "" ∧
    resolveIP "10.0.0.5" "203.0.113.7" = ⟨"10.0.0.5", false⟩ :=
  ⟨by decide, ip_override_skips_terraform "10.0.0.5" "203.0.113.7" (by decide)⟩

/-- C8: installing with label com.test, delay 5m and resolved IP 10.0.0.5
creates the descriptor file com.test.10.0.0.5.plist whose StartInterval
field is 300 seconds. -/
theorem install_descriptor_name_and_interval :
    plistFileName "com.test" "10.0.0.5" = "com.test.10.0.0.5.plist" ∧
    startIntervalField fiveMinutes = "300" := by decide

/-- C9: directory traversal order does not affect the deduplicated result:
any two file walks whose aggregate line sequences are permutations of one
another give the same unique set and the same set of summary-file lines. -/
theorem traversal_order_irrelevant (files₁ files₂ : List (List String))
    (h : (aggregateLines files₁).Perm (aggregateLines files₂)) :
    uniqueBashLineSet files₁ = uniqueBashLineSet files₂ ∧
    (summaryLines (getUniqueBashLines files₁)).toFinset =
      (summaryLines (getUniqueBashLines files₂)).toFinset := by
  constructor
  · exact List.toFinset_eq_of_perm _ _ h
  · exact List.toFinset_eq_of_perm _ _ ((h.dedup).filter _)

/-- C9, witness: visiting the fixture's two files in the opposite order
permutes the aggregate sequence but leaves the unique set and the summary
line set unchanged. -/
theorem traversal_order_irrelevant_witness :
    (aggregateLines fixtureFiles).Perm
        (aggregateLines [["cd /tmp", "echo hello world"], ["ls -la", "cd /tmp", "ls -la"]]) ∧
    (uniqueBashLineSet fixtureFiles =
        uniqueBashLineSet [["cd /tmp", "echo hello world"], ["ls -la", "cd /tmp", "ls -la"]] ∧
      (summaryLines (getUniqueBashLines fixtureFiles)).toFinset =
        (summaryLines (getUniqueBashLines
          [["cd /tmp", "echo hello world"], ["ls -la", "cd /tmp", "ls -la"]])).toFinset) :=
  ⟨by decide, traversal_order_irrelevant _ _ (by decide)⟩

/-- C10: `generateSummaryFile` creates summary.txt inside the very
directory the walk reads, the walk skips only directories, so a later run
reads the previous summary.txt: each of its lines is in the later run's
aggregate sequence and unique set. -/
theorem summary_feeds_next_run (d : CaptureDir) (l : List String)
    (logDir line : String) (hline : line ∈ summaryLines l) :
    summaryPath logDir = logDir ++ "/summary.txt" ∧
    "summary.txt" ∈ (runGenerateSummary d l).files.map Prod.fst ∧
    line ∈ dirAggregate (runGenerateSummary d l) ∧
    line ∈ uniqueBashLineSet (walkFiles (runGenerateSummary d l)) := by
  have hwalk : walkFiles (runGenerateSummary d l) =
      summaryLines l :: (d.files.filter (fun f => f.1 ≠ "summary.txt")).map Prod.snd := by
    simp [walkFiles, runGenerateSummary, writeSummaryFile]
  have hagg : line ∈ aggregateLines (walkFiles (runGenerateSummary d l)) := by
    rw [hwalk]
    exact mem_aggregateLines_cons _ _ _ hline
  refine ⟨rfl, ?_, hagg, ?_⟩
  · simp [runGenerateSummary, writeSummaryFile]
  · rw [uniqueBashLineSet, List.mem_toFinset]
    exact hagg

/-- C10, witness: after a run writes echo hello world to summary.txt in a
directory holding one capture file, the next walk's aggregate and unique
set contain that line. -/
theorem summary_feeds_next_run_witness :
    "echo hello world" ∈ summaryLines ["echo hello world", "ls -la"] ∧
    (summaryPath "./data/bash_history" = "./data/bash_history" ++ "/summary.txt" ∧
      "summary.txt" ∈ (runGenerateSummary
          ⟨[("bash_history_20240101_000000.txt", ["ls -la", "echo hello world"])]⟩
          ["echo hello world", "ls -la"]).files.map Prod.fst ∧
      "echo hello world" ∈ dirAggregate (runGenerateSummary
          ⟨[("bash_history_20240101_000000.txt", ["ls -la", "echo hello world"])]⟩
          ["echo hello world", "ls -la"]) ∧
      "echo hello world" ∈ uniqueBashLineSet (walkFiles (runGenerateSummary
          ⟨[("bash_history_20240101_000000.txt", ["ls -la", "echo hello world"])]⟩
          ["echo hello world", "ls -la"]))) :=
  ⟨by decide, summary_feeds_next_run _ _ "./data/bash_history" _ (by decide)⟩

end Tarsnap
